import Mathlib

/-! # STI-backend: the flat-file JSON store and the mail relay

A shallow embedding of `src/database-server.js` (collection store with
timestamped backups) and `src/server.js` (SMTP relay) together with the
properties the specification states about them.

Modelling conventions.

* A JavaScript value that came out of `express.json()` is a `JSON` value.
  Its numbers are the integer-valued doubles and the two infinities:
  `JSON.parse` rounds an integer literal to the nearest double, overflowing
  to `Infinity` (`parseNumber`), and `JSON.stringify` writes `null` for an
  infinity (`JSON.serialised`).  Numbers with a fractional part are not
  modelled.
* `undefined` is `none` of an `Option`.
* The file system is explicit state (`Store`): the regular files lying
  directly in `DB_PATH` and the `backups` subdirectory.  A collection name
  is a single path component (the "filesystem-safe string key" of the
  specification's data model), so that `path.join(DB_PATH, name + '.json')`
  is the file called `name ++ ".json"` in `DB_PATH`.  Writing a file throws
  when its name is not one the directory can hold (`validFileName`: empty,
  with a path separator or a NUL, or longer than `NAME_MAX` bytes); other
  I/O errors (permissions, full disk) and the resource limits of the
  runtime (the 50 MB body limit, the depth of its stack) are not modelled.
  `JSON.parse` throws on a text that is not JSON.
* The text of a file is kept as the JSON document it spells, see
  `FileText`.
* The clock is an argument: `iso` is what `new Date().toISOString()`
  returns at the call.
-/

namespace STIBackend

/-! ## JavaScript values and strings -/

/-- A value as produced by `JSON.parse` (request bodies, file contents), and
also a JSON document as it is written in a text.  In a value, `num n` is the
double equal to the integer `n` and `infinity` is `Infinity` or
`-Infinity`; in a document, `num n` is the integer literal `n`. -/
inductive JSON where
  | null
  | bool (b : Bool)
  | num (n : Int)
  | str (s : String)
  | arr (items : List JSON)
  | obj (fields : List (String × JSON))
  | infinity (negative : Bool)
  deriving Inhabited

/-- JavaScript truthiness of a JSON value: `null`, `false`, `0` and `''` are
falsy, every array and object is truthy, and so is an infinity. -/
def JSON.truthy : JSON → Bool
  | .null => false
  | .bool b => b
  | .num n => n != 0
  | .str s => !s.data.isEmpty
  | .arr _ => true
  | .obj _ => true
  | .infinity _ => true

/-- How many times `a` is to be halved to fall below `2 ^ 53`: the bits of
`a` beyond the 53 a double keeps. -/
def excessBits : Nat → Nat → Nat
  | 0, _ => 0
  | fuel + 1, a => if a < 2 ^ 53 then 0 else excessBits fuel (a / 2) + 1

/-- The magnitude of the double nearest to the natural number `a`: `a`
rounded to 53 significant bits, ties to the even significand. -/
def roundToDouble (a : Nat) : Nat :=
  let shift := excessBits a a
  let q := a / 2 ^ shift
  let r := a % 2 ^ shift
  if 2 ^ shift < 2 * r || (2 * r == 2 ^ shift && q % 2 == 1) then (q + 1) * 2 ^ shift
  else q * 2 ^ shift

/-- A rounded magnitude that is beyond the largest double, that is at least
`2 ^ 1024`. -/
def overflows (m : Nat) : Bool :=
  2 ^ 256 * 2 ^ 256 * 2 ^ 256 * 2 ^ 256 ≤ m

/-- The number `JSON.parse` makes of the integer literal `n`: the nearest
double, or an infinity on overflow. -/
def parseNumber (n : Int) : JSON :=
  let m := roundToDouble n.natAbs
  if overflows m then .infinity (decide (n < 0))
  else if n < 0 then .num (-(m : Int))
  else .num m

mutual
/-- The value `JSON.parse` builds from a JSON document: every number is
rounded to a double. -/
def JSON.revive : JSON → JSON
  | .num n => parseNumber n
  | .arr items => .arr (reviveItems items)
  | .obj fields => .obj (reviveFields fields)
  | v => v
/-- The values of the items of an array document. -/
def reviveItems : List JSON → List JSON
  | [] => []
  | v :: vs => v.revive :: reviveItems vs
/-- The values of the members of an object document. -/
def reviveFields : List (String × JSON) → List (String × JSON)
  | [] => []
  | (k, v) :: rest => (k, v.revive) :: reviveFields rest
end

mutual
/-- The JSON document `JSON.stringify` writes for a value: `null` stands for
an infinity. -/
def JSON.serialised : JSON → JSON
  | .infinity _ => .null
  | .arr items => .arr (serialisedItems items)
  | .obj fields => .obj (serialisedFields fields)
  | v => v
/-- The documents of the items of an array. -/
def serialisedItems : List JSON → List JSON
  | [] => []
  | v :: vs => v.serialised :: serialisedItems vs
/-- The documents of the members of an object. -/
def serialisedFields : List (String × JSON) → List (String × JSON)
  | [] => []
  | (k, v) :: rest => (k, v.serialised) :: serialisedFields rest
end

/-- The body parser `express.json()`: the value the handler receives for
the JSON document sent in the request. -/
def expressJson (document : JSON) : JSON :=
  document.revive

mutual
/-- A value that a JSON text carries unchanged: every number is a safe
integer (of magnitude below `2 ^ 53`), there is no infinity, and the keys of
every object are distinct. -/
def JSON.exact : JSON → Bool
  | .num n => decide (n.natAbs < 2 ^ 53)
  | .infinity _ => false
  | .arr items => exactItems items
  | .obj fields => exactFields fields && decide ((fields.map Prod.fst).Nodup)
  | _ => true
/-- Every item of an array is exact. -/
def exactItems : List JSON → Bool
  | [] => true
  | v :: vs => v.exact && exactItems vs
/-- Every member of an object is exact. -/
def exactFields : List (String × JSON) → Bool
  | [] => true
  | (_, v) :: rest => v.exact && exactFields rest
end

/-- The test `Array.isArray(v)`. -/
def JSON.isArray : JSON → Bool
  | .arr _ => true
  | _ => false

/-- Number of UTF-16 code units of a string (`s.length` in JavaScript). -/
def utf16Length (s : String) : Nat :=
  (s.data.map fun c => if c.val < 0x10000 then 1 else 2).sum

/-- The property read `v.length`: defined for arrays and strings, an own
property for objects, `undefined` otherwise. -/
def JSON.length : JSON → Option JSON
  | .arr items => some (.num items.length)
  | .str s => some (.num (utf16Length s))
  | .obj fields => fields.lookup "length"
  | _ => none

/-- An object literal's property: a property whose value is `undefined` is
left out by `res.json`. -/
def prop (key : String) (value : Option JSON) : List (String × JSON) :=
  match value with
  | some v => [(key, v)]
  | none => []

/-- The method `s.endsWith(suffix)`. -/
def endsWith (s suffix : String) : Bool :=
  suffix.data.isSuffixOf s.data

/-- Replacement of the first occurrence of `pat` in a list of characters. -/
def replaceFirstChars (pat rep : List Char) : List Char → List Char
  | [] => if pat.isPrefixOf [] then rep else []
  | c :: cs =>
    if pat.isPrefixOf (c :: cs) then rep ++ (c :: cs).drop pat.length
    else c :: replaceFirstChars pat rep cs

/-- The method `s.replace(pat, rep)` with a string pattern: only the first
occurrence of `pat` is replaced. -/
def replace (s pat rep : String) : String :=
  String.mk (replaceFirstChars pat.data rep.data s.data)

/-- The method `s.replace(/a/g, b)` for a one-character pattern: every
occurrence is replaced. -/
def replaceAll (s : String) (a b : Char) : String :=
  String.mk (s.data.map fun c => if c = a then b else c)

/-- Pieces of a list of characters between the occurrences of `sep`. -/
def splitChars (sep : Char) : List Char → List (List Char)
  | [] => [[]]
  | c :: cs =>
    if c = sep then [] :: splitChars sep cs
    else
      match splitChars sep cs with
      | [] => [[c]]
      | seg :: rest => (c :: seg) :: rest

/-- The method `s.split(sep)` for a one-character separator. -/
def split (s : String) (sep : Char) : List String :=
  (splitChars sep s.data).map String.mk

/-- The method `s.toLowerCase()`.  Only ASCII letters are folded: the
suffixes tested by the relay are ASCII, and no non-ASCII letter lowercases
to a text ending in one of them. -/
def toLowerCase (s : String) : String :=
  String.mk (s.data.map Char.toLower)

/-- White space and line terminators of ECMAScript, the characters removed
by `trim`. -/
def isWhiteSpace (c : Char) : Bool :=
  c.val = 0x09 || c.val = 0x0A || c.val = 0x0B || c.val = 0x0C || c.val = 0x0D ||
  c.val = 0x20 || c.val = 0xA0 || c.val = 0x1680 ||
  (0x2000 ≤ c.val && c.val ≤ 0x200A) ||
  c.val = 0x2028 || c.val = 0x2029 || c.val = 0x202F || c.val = 0x205F ||
  c.val = 0x3000 || c.val = 0xFEFF

/-- The method `s.trim()`. -/
def trim (s : String) : String :=
  String.mk ((s.data.dropWhile isWhiteSpace).reverse.dropWhile isWhiteSpace).reverse

/-- Truthiness of a JavaScript string: it is not empty. -/
def nonEmpty (s : String) : Bool :=
  !s.data.isEmpty

/-! ## The file system -/

/-- Text of a file: `json v` is a text that spells the JSON document `v`,
`other raw` is a text on which `JSON.parse` throws. -/
inductive FileText where
  | json (v : JSON)
  | other (raw : String)
  deriving Inhabited

/-- The function `JSON.stringify(data, null, 2)`: the text of the document
written for the value. -/
def JSON.stringify (data : JSON) : FileText :=
  .json data.serialised

/-- The function `JSON.parse`: the value of the document, and a
`SyntaxError` thrown on a text that is not JSON. -/
def JSON.parse : FileText → Except String JSON
  | .json v => .ok v.revive
  | .other _ => .error "SyntaxError"

/-- A directory: its regular files, name and text. -/
abbrev Dir := List (String × FileText)

/-- State of the store on disk: the regular files directly in `DB_PATH`, and
the files of `DB_PATH/backups` (`none` while that directory does not
exist). -/
structure Store where
  files : Dir
  backups : Option Dir

/-- The call `fs.existsSync` on a file of a directory. -/
def existsSync (d : Dir) (file : String) : Bool :=
  (d.lookup file).isSome

/-- The call `fs.readFileSync(file, 'utf8')`, which throws when there is no
such file. -/
def readFileSync (d : Dir) (file : String) : Except String FileText :=
  match d.lookup file with
  | some text => .ok text
  | none => .error "ENOENT"

/-- Longest file name, in bytes, that a directory holds (`NAME_MAX` of the
file system). -/
def NAME_MAX : Nat := 255

/-- Number of bytes of the UTF-8 encoding of a string. -/
def utf8Length (s : String) : Nat :=
  (s.data.map fun c =>
    if c.val < 0x80 then 1 else if c.val < 0x800 then 2 else if c.val < 0x10000 then 3 else 4).sum

/-- A name under which a directory can hold a file: not empty, without path
separator or NUL, and of at most `NAME_MAX` bytes. -/
def validFileName (file : String) : Bool :=
  !file.data.isEmpty && !file.data.contains '/' && !file.data.contains (Char.ofNat 0) &&
    decide (utf8Length file ≤ NAME_MAX)

/-- A directory after the text of a file is replaced, or the file created
when the directory has none of that name. -/
def putFile : Dir → String → FileText → Dir
  | [], file, text => [(file, text)]
  | (k, t) :: rest, file, text =>
    if k = file then (file, text) :: rest
    else (k, t) :: putFile rest file text

/-- The call `fs.writeFileSync`: the file is written, or the call throws
when the directory cannot hold a file of that name. -/
def writeFileSync (d : Dir) (file : String) (text : FileText) : Except String Dir :=
  if validFileName file then .ok (putFile d file text)
  else .error "ENOENT or ENAMETOOLONG"

/-- The call `fs.unlinkSync`. -/
def unlinkSync (d : Dir) (file : String) : Dir :=
  d.filter fun e => e.1 != file

/-- The files of the backups directory, none while it does not exist. -/
def Store.backupFiles (st : Store) : Dir :=
  st.backups.getD []

/-- The call `fs.mkdirSync(backupPath)`: an empty backups directory. -/
def mkdirBackups (st : Store) : Store :=
  { st with backups := some [] }

/-- The call `fs.copyFileSync(originalFile, backupFile)` from `DB_PATH` into
the backups directory; it throws when the original is missing or when the
backups directory cannot hold a file of the backup's name. -/
def copyFileSync (st : Store) (originalFile backupFile : String) : Except String Store := do
  let text ← readFileSync st.files originalFile
  let backups ← writeFileSync st.backupFiles backupFile text
  pure { st with backups := some backups }

/-- The call `fs.readdirSync(DB_PATH)`: the names of the files and of the
subdirectory. -/
def readdirSync (st : Store) : List String :=
  st.files.map Prod.fst ++ (if st.backups.isSome then ["backups"] else [])

/-! ## `database-server.js`: helpers -/

/-- The helper `readJSON`: the parsed file, `null` when the file is missing,
and `null` as well when reading or parsing throws (the `catch`). -/
def readJSON (st : Store) (filename : String) : JSON :=
  let filepath := filename ++ ".json"
  let attempt : Except String JSON :=
    if existsSync st.files filepath then do
      let data ← readFileSync st.files filepath
      JSON.parse data
    else
      pure JSON.null
  match attempt with
  | .ok v => v
  | .error _ => JSON.null

/-- The helper `writeJSON`: writes the serialised value and returns `true`,
or returns `false` when writing throws (the `catch`). -/
def writeJSON (st : Store) (filename : String) (data : JSON) : Bool × Store :=
  let filepath := filename ++ ".json"
  match writeFileSync st.files filepath (JSON.stringify data) with
  | .ok files => (true, { st with files := files })
  | .error _ => (false, st)

/-- The expression `toISOString().replace(/:/g, '-').split('.')[0]` of
`createBackup`, on the clock reading `iso`. -/
def backupTimestamp (iso : String) : String :=
  (split (replaceAll iso ':' '-') '.').headD ""

/-- The helper `createBackup`: makes the backups directory when missing,
then copies the collection file (when there is one) to
`backups/<filename>_<timestamp>.json`; when the copy throws, the error is
logged and nothing else happens (the `catch`). -/
def createBackup (iso : String) (st : Store) (filename : String) : Store :=
  let timestamp := backupTimestamp iso
  let st1 := if st.backups.isSome then st else mkdirBackups st
  let originalFile := filename ++ ".json"
  let backupFile := filename ++ "_" ++ timestamp ++ ".json"
  if existsSync st1.files originalFile then
    match copyFileSync st1 originalFile backupFile with
    | .ok st2 => st2
    | .error _ => st1
  else st1

/-! ## `database-server.js`: endpoints -/

/-- An HTTP answer: the status and the JSON body given to `res.json`. -/
structure Response where
  status : Nat
  body : JSON

/-- Endpoint `POST /api/db/productividad/save`; `data` is `req.body.data`. -/
def productividadSave (iso : String) (st : Store) (data : Option JSON) : Response × Store :=
  match data with
  | none =>
    (⟨400, .obj [("success", .bool false), ("error", .str "Datos inválidos. Se requiere un array.")]⟩, st)
  | some d =>
    if !d.truthy || !d.isArray then
      (⟨400, .obj [("success", .bool false), ("error", .str "Datos inválidos. Se requiere un array.")]⟩, st)
    else
      let st1 := createBackup iso st "productividad"
      let (success, st2) := writeJSON st1 "productividad" d
      if success then
        (⟨200, .obj ([("success", .bool true)] ++ prop "count" d.length ++
          [("message", .str "Productividad guardada exitosamente")])⟩, st2)
      else
        (⟨500, .obj [("success", .bool false), ("error", .str "Error al guardar productividad")]⟩, st2)

/-- Endpoint `GET /api/db/productividad/get`. -/
def productividadGet (st : Store) : Response :=
  let data := readJSON st "productividad"
  if data.truthy then
    ⟨200, .obj ([("success", .bool true), ("data", data)] ++ prop "count" data.length)⟩
  else
    ⟨200, .obj [("success", .bool true), ("data", .arr []), ("count", .num 0)]⟩

/-- Body of `POST /api/db/config/save`. -/
structure ConfigSaveBody where
  collection : Option String
  data : Option JSON

/-- Endpoint `POST /api/db/config/save`. -/
def configSave (iso : String) (st : Store) (body : ConfigSaveBody) : Response × Store :=
  match body.collection, body.data with
  | some collection, some data =>
    if !nonEmpty collection || !data.truthy then
      (⟨400, .obj [("success", .bool false), ("error", .str "Se requiere collection y data")]⟩, st)
    else
      let st1 := createBackup iso st collection
      let (success, st2) := writeJSON st1 collection data
      if success then
        (⟨200, .obj [("success", .bool true),
          ("message", .str (collection ++ " guardado exitosamente"))]⟩, st2)
      else
        (⟨500, .obj [("success", .bool false),
          ("error", .str ("Error al guardar " ++ collection))]⟩, st2)
  | _, _ =>
    (⟨400, .obj [("success", .bool false), ("error", .str "Se requiere collection y data")]⟩, st)

/-- Endpoint `GET /api/db/config/get/:collection`. -/
def configGet (st : Store) (collection : String) : Response :=
  let data := readJSON st collection
  if data.truthy then
    ⟨200, .obj [("success", .bool true), ("data", data)]⟩
  else
    ⟨200, .obj [("success", .bool true), ("data", .null)]⟩

/-- One element of the `collections` array of `GET /api/db/collections`.
The fields `size` and `modified`, which come from `fs.statSync`, are left
out. -/
structure CollectionEntry where
  name : String
  records : JSON

/-- Endpoint `GET /api/db/collections`: the `collections` array of its
answer. -/
def collections (st : Store) : List CollectionEntry :=
  ((readdirSync st).filter fun file => endsWith file ".json").map fun file =>
    let name := replace file ".json" ""
    let data := readJSON st name
    { name := name
      records := if data.isArray then (data.length).getD .null else .str "N/A" }

/-- Endpoint `DELETE /api/db/delete/:collection`. -/
def deleteCollection (iso : String) (st : Store) (collection : String) : Response × Store :=
  let filepath := collection ++ ".json"
  if existsSync st.files filepath then
    let st1 := createBackup iso st collection
    let st2 := { st1 with files := unlinkSync st1.files filepath }
    (⟨200, .obj [("success", .bool true),
      ("message", .str (collection ++ " eliminado exitosamente"))]⟩, st2)
  else
    (⟨404, .obj [("success", .bool false), ("error", .str "Colección no encontrada")]⟩, st)

/-- Endpoint `POST /api/db/backup/:collection`. -/
def backupCollection (iso : String) (st : Store) (collection : String) : Response × Store :=
  let st1 := createBackup iso st collection
  (⟨200, .obj [("success", .bool true),
    ("message", .str ("Backup de " ++ collection ++ " creado exitosamente"))]⟩, st1)

/-- The `stats` object of `GET /api/db/stats`.  The fields `totalSize` (a
floating-point formatting of sizes from `fs.statSync`) and `path` are left
out. -/
structure Stats where
  collections : Nat
  totalRecords : Nat

/-- Endpoint `GET /api/db/stats`: the `stats` object of its answer. -/
def stats (st : Store) : Stats :=
  let files := (readdirSync st).filter fun f => endsWith f ".json"
  let totalRecords := files.foldl (fun total file =>
    match readJSON st (replace file ".json" "") with
    | .arr items => total + items.length
    | _ => total) 0
  { collections := files.length, totalRecords := totalRecords }

/-! ## `server.js`: the mail relay -/

/-- One element of `emailData.attachments`; `content` is base64 text. -/
structure Attachment where
  attachmentName : String
  content : String

/-- The object `emailData` of the request body. -/
structure EmailData where
  fromAddress : String
  toAddress : String
  subject : String
  content : String
  cc : Option String
  attachments : Option (List Attachment)

/-- The object `smtpConfig` of the request body. -/
structure SmtpConfig where
  email : String
  password : String

/-- The bytes `Buffer.from(text, 'base64')`, kept as the text they are
decoded from. -/
structure Buffer where
  base64 : String

/-- An attachment as handed to the transport. -/
structure MailAttachment where
  filename : String
  content : Buffer
  contentType : String

/-- The object `mailOptions` handed to `transporter.sendMail`. -/
structure MailOptions where
  «from» : String
  «to» : String
  subject : String
  html : String
  cc : Option String
  attachments : Option (List MailAttachment)

/-- The chain of `endsWith` tests that picks the content type from the
lowercased file name. -/
def detectContentType (fileName : String) : String :=
  if endsWith fileName ".pdf" then "application/pdf"
  else if endsWith fileName ".zip" then "application/zip"
  else if endsWith fileName ".rar" then "application/x-rar-compressed"
  else if endsWith fileName ".7z" then "application/x-7z-compressed"
  else if endsWith fileName ".doc" then "application/msword"
  else if endsWith fileName ".docx" then
    "application/vnd.openxmlformats-officedocument.wordprocessingml.document"
  else if endsWith fileName ".xls" then "application/vnd.ms-excel"
  else if endsWith fileName ".xlsx" then
    "application/vnd.openxmlformats-officedocument.spreadsheetml.sheet"
  else "application/octet-stream"

/-- The callback of `emailData.attachments.map`. -/
def mapAttachment (att : Attachment) : MailAttachment :=
  let fileName := toLowerCase att.attachmentName
  let contentType := detectContentType fileName
  { filename := att.attachmentName
    content := ⟨att.content⟩
    contentType := contentType }

/-- The message built by `POST /api/send-email`. -/
def mailOptions (emailData : EmailData) : MailOptions :=
  let base : MailOptions :=
    { «from» := emailData.fromAddress
      «to» := emailData.toAddress
      subject := emailData.subject
      html := emailData.content
      cc := none
      attachments := none }
  let withCc : MailOptions :=
    match emailData.cc with
    | some cc => if nonEmpty cc && nonEmpty (trim cc) then { base with cc := some cc } else base
    | none => base
  match emailData.attachments with
  | some atts =>
    if atts.length > 0 then { withCc with attachments := some (atts.map mapAttachment) }
    else withCc
  | none => withCc

/-- The options given to `nodemailer.createTransport`. -/
structure TransportOptions where
  host : String
  port : Nat
  secure : Bool
  user : String
  pass : String

/-- What `sendMail` resolves to. -/
structure SentInfo where
  messageId : String
  response : String

/-- Endpoint `POST /api/send-email`; `sendMail` is the transport, which
either resolves or throws with a message. -/
def sendEmail (sendMail : TransportOptions → MailOptions → Except String SentInfo)
    (emailData : EmailData) (smtpConfig : SmtpConfig) : Response :=
  let transporter : TransportOptions :=
    { host := "smtp.zoho.com", port := 465, secure := true
      user := smtpConfig.email, pass := smtpConfig.password }
  match sendMail transporter (mailOptions emailData) with
  | .ok info =>
    ⟨200, .obj [("success", .bool true), ("messageId", .str info.messageId),
      ("response", .str info.response)]⟩
  | .error message =>
    ⟨500, .obj [("error", .str "Error al enviar el correo"), ("details", .str message)]⟩

/-! ## The specification's words

Definitions that follow the wording of the specification, to compare the
code with. -/

/-- The backup timestamp as the specification words it: the ISO-8601 string
of the call time with everything from the first `.` removed and every `:`
replaced by `-`. -/
def specTimestamp (iso : String) : String :=
  String.mk ((iso.data.takeWhile fun c => c != '.').map fun c => if c = ':' then '-' else c)

/-- Between the directories `before` and `after`, `file` was written with
`text` and nothing else changed: every other file reads as before, and the
directory has one file more exactly when it had no file of that name. -/
def LeavesBackup (before after : Dir) (file : String) (text : FileText) : Prop :=
  after.lookup file = some text ∧
  (∀ g, g ≠ file → after.lookup g = before.lookup g) ∧
  after.length = before.length + (if (before.lookup file).isNone then 1 else 0)

/-- The fixed table of the specification: suffix of the lowercased file
name, content type. -/
def contentTypeTable : List (String × String) :=
  [(".pdf", "application/pdf"),
   (".zip", "application/zip"),
   (".rar", "application/x-rar-compressed"),
   (".7z", "application/x-7z-compressed"),
   (".doc", "application/msword"),
   (".docx", "application/vnd.openxmlformats-officedocument.wordprocessingml.document"),
   (".xls", "application/vnd.ms-excel"),
   (".xlsx", "application/vnd.openxmlformats-officedocument.spreadsheetml.sheet")]

/-- The content type the table gives for a file name: that of every suffix
of the table the lowercased name ends with, and `application/octet-stream`
when it ends with none of them. -/
def TableGives (name contentType : String) : Prop :=
  (∀ entry ∈ contentTypeTable,
    endsWith (toLowerCase name) entry.1 = true → contentType = entry.2) ∧
  ((∀ entry ∈ contentTypeTable, endsWith (toLowerCase name) entry.1 = false) →
    contentType = "application/octet-stream")

/-- Array length of the parsed text of a file, when it parses to an array. -/
def recordsOf (text : FileText) : Option Nat :=
  match JSON.parse text with
  | .ok (.arr items) => some items.length
  | _ => none

/-- The collection files: the files `<name>.json` directly in the base
directory. -/
def collectionFiles (st : Store) : Dir :=
  st.files.filter fun e => endsWith e.1 ".json"

/-- The collection name of a file `<name>.json`: the file name without its
extension. -/
def collectionName (file : String) : String :=
  String.mk (file.data.take (file.data.length - ".json".data.length))

/-- Total record count as the specification words it: the sum of the array
lengths over the collection files whose value is an array. -/
def specTotalRecords (st : Store) : Nat :=
  ((collectionFiles st).map fun e => (recordsOf e.2).getD 0).sum

/-- Listing as the specification words it: one entry per collection file,
with the collection name and the array length, or the marker when the value
is not an array. -/
def specCollections (st : Store) : List CollectionEntry :=
  (collectionFiles st).map fun e =>
    { name := collectionName e.1
      records :=
        match recordsOf e.2 with
        | some n => .num n
        | none => .str "N/A" }

/-- A store with plain names: no two files of the base directory share a
name, and no collection name contains the text ".json". -/
def PlainNames (st : Store) : Prop :=
  (st.files.map Prod.fst).Nodup ∧
  ∀ e ∈ collectionFiles st, ¬ ".json".data <:+: (collectionName e.1).data

/-! ## Lemmas on directories -/

theorem lookup_cons_ne {d : Dir} {k g : String} {t : FileText} (h : g ≠ k) :
    List.lookup g ((k, t) :: d) = List.lookup g d := by
  have hb : (g == k) = false := by simpa using h
  simp [List.lookup, hb]

theorem lookup_cons_self {d : Dir} {k : String} {t : FileText} :
    List.lookup k ((k, t) :: d) = some t := by
  simp [List.lookup]

/-- After `putFile` the file holds the written text. -/
theorem lookup_putFile_same (d : Dir) (file : String) (text : FileText) :
    (putFile d file text).lookup file = some text := by
  induction d with
  | nil => simp [putFile, List.lookup]
  | cons e rest ih =>
    obtain ⟨k, t⟩ := e
    by_cases hk : k = file
    · simp [putFile, hk, List.lookup]
    · have hne : file ≠ k := fun h => hk h.symm
      simp only [putFile, if_neg hk]
      rw [lookup_cons_ne hne]
      exact ih

/-- The update `putFile` leaves every other file as it was. -/
theorem lookup_putFile_other (d : Dir) (file : String) (text : FileText) (g : String)
    (hg : g ≠ file) : (putFile d file text).lookup g = d.lookup g := by
  induction d with
  | nil =>
    simp only [putFile]
    rw [lookup_cons_ne hg]
  | cons e rest ih =>
    obtain ⟨k, t⟩ := e
    by_cases hk : k = file
    · subst hk
      simp only [putFile, if_true]
      rw [lookup_cons_ne hg, lookup_cons_ne hg]
    · simp only [putFile, if_neg hk]
      by_cases hgk : g = k
      · subst hgk
        rw [lookup_cons_self, lookup_cons_self]
      · rw [lookup_cons_ne hgk, lookup_cons_ne hgk]
        exact ih

/-- The update `putFile` adds one file when there was none of that name,
and none otherwise. -/
theorem length_putFile (d : Dir) (file : String) (text : FileText) :
    (putFile d file text).length =
      d.length + (if (d.lookup file).isNone then 1 else 0) := by
  induction d with
  | nil => simp [putFile]
  | cons e rest ih =>
    obtain ⟨k, t⟩ := e
    by_cases hk : k = file
    · subst hk
      simp [putFile, lookup_cons_self]
    · have hne : file ≠ k := fun h => hk h.symm
      simp only [putFile, if_neg hk, List.length_cons, ih]
      rw [lookup_cons_ne hne]
      omega

/-! ## Lemmas on numbers and documents -/

/-- A natural number below `2 ^ 53` is a double. -/
theorem roundToDouble_small (a : Nat) (h : a < 2 ^ 53) : roundToDouble a = a := by
  have he : excessBits a a = 0 := by
    cases a with
    | zero => rfl
    | succ k => rw [excessBits, if_pos h]
  simp [roundToDouble, he, Nat.mod_one]

/-- A safe integer is parsed to itself. -/
theorem parseNumber_small (n : Int) (h : n.natAbs < 2 ^ 53) : parseNumber n = .num n := by
  unfold parseNumber
  rw [roundToDouble_small _ h]
  have ho : overflows n.natAbs = false := by
    unfold overflows
    simp only [decide_eq_false_iff_not, not_le]
    calc n.natAbs < 2 ^ 53 := h
      _ ≤ 2 ^ 256 * 2 ^ 256 * 2 ^ 256 * 2 ^ 256 := by norm_num
  simp only [ho, Bool.false_eq_true, if_false]
  by_cases hn : n < 0
  · simp only [hn, if_true]
    congr 1
    omega
  · simp only [hn, if_false]
    congr 1
    omega

mutual
/-- Reading back the document written for an exact value gives the value. -/
theorem JSON.revive_serialised (v : JSON) (h : v.exact = true) : v.serialised.revive = v := by
  cases v with
  | null => rfl
  | bool b => rfl
  | str s => rfl
  | infinity neg => simp [JSON.exact] at h
  | num n =>
    simp only [JSON.exact, decide_eq_true_eq] at h
    simp only [JSON.serialised, JSON.revive]
    exact parseNumber_small n h
  | arr items =>
    simp only [JSON.exact] at h
    simp only [JSON.serialised, JSON.revive, reviveItems_serialised items h]
  | obj fields =>
    simp only [JSON.exact, Bool.and_eq_true] at h
    simp only [JSON.serialised, JSON.revive, reviveFields_serialised fields h.1]
/-- The same for the items of an array. -/
theorem reviveItems_serialised (items : List JSON) (h : exactItems items = true) :
    reviveItems (serialisedItems items) = items := by
  cases items with
  | nil => rfl
  | cons v vs =>
    simp only [exactItems, Bool.and_eq_true] at h
    simp only [serialisedItems, reviveItems, JSON.revive_serialised v h.1,
      reviveItems_serialised vs h.2]
/-- The same for the members of an object. -/
theorem reviveFields_serialised (fields : List (String × JSON))
    (h : exactFields fields = true) : reviveFields (serialisedFields fields) = fields := by
  cases fields with
  | nil => rfl
  | cons e rest =>
    obtain ⟨k, v⟩ := e
    simp only [exactFields, Bool.and_eq_true] at h
    simp only [serialisedFields, reviveFields, JSON.revive_serialised v h.1,
      reviveFields_serialised rest h.2]
end

/-- Parsing the text written for an exact value gives the value back. -/
theorem parse_stringify (v : JSON) (h : v.exact = true) :
    JSON.parse (JSON.stringify v) = .ok v := by
  simp only [JSON.stringify, JSON.parse, JSON.revive_serialised v h]

theorem length_reviveItems (items : List JSON) : (reviveItems items).length = items.length := by
  induction items with
  | nil => rfl
  | cons v vs ih => simp [reviveItems, ih]

/-! ## Lemmas on the helpers -/

/-- What `readJSON` returns, by the state of the file. -/
theorem readJSON_eq (st : Store) (filename : String) :
    readJSON st filename =
      match st.files.lookup (filename ++ ".json") with
      | some (.json v) => v.revive
      | some (.other _) => JSON.null
      | none => JSON.null := by
  unfold readJSON
  cases h : st.files.lookup (filename ++ ".json") with
  | none => simp [existsSync, h, pure, Except.pure]
  | some text =>
    cases text with
    | json v => simp [existsSync, h, readFileSync, JSON.parse, bind, Except.bind]
    | other raw => simp [existsSync, h, readFileSync, JSON.parse, bind, Except.bind]

/-- What `writeJSON` does when the directory can hold the file. -/
theorem writeJSON_valid (st : Store) (filename : String) (data : JSON)
    (h : validFileName (filename ++ ".json") = true) :
    writeJSON st filename data =
      (true, { st with
        files := putFile st.files (filename ++ ".json") (JSON.stringify data) }) := by
  simp [writeJSON, writeFileSync, h]

/-- The helper `writeJSON` never touches the backups. -/
theorem writeJSON_backups (st : Store) (filename : String) (data : JSON) :
    (writeJSON st filename data).2.backups = st.backups := by
  by_cases h : validFileName (filename ++ ".json") = true <;>
    simp [writeJSON, writeFileSync, h]

/-- What `copyFileSync` does on an existing original. -/
theorem copyFileSync_eq (st : Store) (originalFile backupFile : String) (text : FileText)
    (h : st.files.lookup originalFile = some text) :
    copyFileSync st originalFile backupFile =
      if validFileName backupFile then
        .ok { st with backups := some (putFile st.backupFiles backupFile text) }
      else .error "ENOENT or ENAMETOOLONG" := by
  unfold copyFileSync writeFileSync readFileSync
  rw [h]
  split_ifs <;> rfl

/-- The helper `createBackup` never touches the collection files. -/
theorem createBackup_files (iso : String) (st : Store) (filename : String) :
    (createBackup iso st filename).files = st.files := by
  unfold createBackup mkdirBackups
  cases hf : st.files.lookup (filename ++ ".json") with
  | none => cases hb : st.backups <;> simp [existsSync, hf]
  | some text =>
    cases hb : st.backups <;>
      simp only [existsSync, hf, Option.isSome_some, Option.isSome_none, if_true,
        Bool.false_eq_true, if_false] <;>
      rw [copyFileSync_eq _ _ _ text (by simpa using hf)] <;>
      split_ifs <;> rfl

/-- Without a collection file, `createBackup` copies nothing. -/
theorem createBackup_missing (iso : String) (st : Store) (filename : String)
    (h : st.files.lookup (filename ++ ".json") = none) :
    (createBackup iso st filename).backupFiles = st.backupFiles := by
  unfold createBackup mkdirBackups
  cases hb : st.backups <;> simp [existsSync, h, Store.backupFiles, hb]

/-- With a collection file and a backup name the directory can hold,
`createBackup` writes the text of the file to the backup file. -/
theorem createBackup_existing (iso : String) (st : Store) (filename : String) (text : FileText)
    (h : st.files.lookup (filename ++ ".json") = some text)
    (hvalid : validFileName (filename ++ "_" ++ backupTimestamp iso ++ ".json") = true) :
    (createBackup iso st filename).backupFiles =
      putFile st.backupFiles (filename ++ "_" ++ backupTimestamp iso ++ ".json") text := by
  unfold createBackup mkdirBackups
  cases hb : st.backups <;>
    simp only [existsSync, h, Option.isSome_some, Option.isSome_none, if_true,
      Bool.false_eq_true, if_false] <;>
    rw [copyFileSync_eq _ _ _ text (by simpa using h), if_pos hvalid] <;>
    simp [Store.backupFiles, hb]

/-- With a backup name the directory cannot hold, the copy throws, the error
is swallowed and `createBackup` leaves no backup. -/
theorem createBackup_refused (iso : String) (st : Store) (filename : String)
    (hvalid : validFileName (filename ++ "_" ++ backupTimestamp iso ++ ".json") = false) :
    (createBackup iso st filename).backupFiles = st.backupFiles := by
  cases h : st.files.lookup (filename ++ ".json") with
  | none => exact createBackup_missing iso st filename h
  | some text =>
    unfold createBackup mkdirBackups
    cases hb : st.backups <;>
      simp only [existsSync, h, Option.isSome_some, Option.isSome_none, if_true,
        Bool.false_eq_true, if_false] <;>
      rw [copyFileSync_eq _ _ _ text (by simpa using h), hvalid] <;>
      simp [Store.backupFiles, hb]

/-! ## Saving a non-array to "productividad" -/

/-- C3: when `body.data` of `POST /api/db/productividad/save` is not an
array (missing, or any value that is no array), the answer is HTTP 400 with
`success: false` and the store is exactly as before: nothing is written and
no backup is made. -/
theorem productividadSave_rejects_non_array (iso : String) (st : Store) (data : Option JSON)
    (h : ∀ items, data ≠ some (JSON.arr items)) :
    (productividadSave iso st data).1.status = 400 ∧
    (productividadSave iso st data).1.body =
      .obj [("success", .bool false), ("error", .str "Datos inválidos. Se requiere un array.")] ∧
    (productividadSave iso st data).2 = st := by
  cases data with
  | none => simp [productividadSave]
  | some d =>
    cases d with
    | arr items => exact absurd rfl (h items)
    | null => simp [productividadSave, JSON.truthy]
    | bool b => simp [productividadSave, JSON.isArray]
    | num n => simp [productividadSave, JSON.isArray]
    | str s => simp [productividadSave, JSON.isArray]
    | obj fields => simp [productividadSave, JSON.isArray]
    | infinity negative => simp [productividadSave, JSON.isArray]

/-- Witness of C3: an object sent as `data`, on a store that holds records. -/
theorem productividadSave_rejects_non_array_witness :
    (productividadSave "2025-03-01T10:15:30.123Z"
        ⟨[("productividad.json", .json (.arr [.num 1]))], none⟩
        (some (.obj [("id", .num 1)]))).1.status = 400 ∧
    (productividadSave "2025-03-01T10:15:30.123Z"
        ⟨[("productividad.json", .json (.arr [.num 1]))], none⟩
        (some (.obj [("id", .num 1)]))).1.body =
      .obj [("success", .bool false), ("error", .str "Datos inválidos. Se requiere un array.")] ∧
    (productividadSave "2025-03-01T10:15:30.123Z"
        ⟨[("productividad.json", .json (.arr [.num 1]))], none⟩
        (some (.obj [("id", .num 1)]))).2 =
      ⟨[("productividad.json", .json (.arr [.num 1]))], none⟩ :=
  productividadSave_rejects_non_array _ _ _ (by intro items h; cases h)

/-! ## Deleting and backing up a collection that does not exist -/

/-- C6: for a collection whose file does not exist,
`DELETE /api/db/delete/:collection` answers HTTP 404 with `success: false`
and leaves the store as it was, collection files and backups directory. -/
theorem deleteCollection_missing (iso : String) (st : Store) (collection : String)
    (h : st.files.lookup (collection ++ ".json") = none) :
    (deleteCollection iso st collection).1.status = 404 ∧
    (deleteCollection iso st collection).1.body =
      .obj [("success", .bool false), ("error", .str "Colección no encontrada")] ∧
    (deleteCollection iso st collection).2 = st := by
  simp [deleteCollection, existsSync, h]

/-- Witness of C6: deleting "turnos" from a store that only holds
"productividad" and one backup. -/
theorem deleteCollection_missing_witness :
    (deleteCollection "2025-03-01T10:15:30.123Z"
        ⟨[("productividad.json", .json (.arr []))],
          some [("productividad_2025-02-28T09-00-00.json", .json (.arr []))]⟩ "turnos").1.status
      = 404 ∧
    (deleteCollection "2025-03-01T10:15:30.123Z"
        ⟨[("productividad.json", .json (.arr []))],
          some [("productividad_2025-02-28T09-00-00.json", .json (.arr []))]⟩ "turnos").1.body =
      .obj [("success", .bool false), ("error", .str "Colección no encontrada")] ∧
    (deleteCollection "2025-03-01T10:15:30.123Z"
        ⟨[("productividad.json", .json (.arr []))],
          some [("productividad_2025-02-28T09-00-00.json", .json (.arr []))]⟩ "turnos").2 =
      ⟨[("productividad.json", .json (.arr []))],
        some [("productividad_2025-02-28T09-00-00.json", .json (.arr []))]⟩ :=
  deleteCollection_missing _ _ _ rfl

/-- C7: for a collection whose file does not exist,
`POST /api/db/backup/:collection` still answers `success: true` (HTTP 200),
the files of the backups directory are the same as before and the
collection files are untouched. -/
theorem backupCollection_missing (iso : String) (st : Store) (collection : String)
    (h : st.files.lookup (collection ++ ".json") = none) :
    (backupCollection iso st collection).1.status = 200 ∧
    (backupCollection iso st collection).1.body =
      .obj [("success", .bool true),
        ("message", .str ("Backup de " ++ collection ++ " creado exitosamente"))] ∧
    (backupCollection iso st collection).2.backupFiles = st.backupFiles ∧
    (backupCollection iso st collection).2.files = st.files := by
  refine ⟨rfl, rfl, ?_, ?_⟩
  · exact createBackup_missing iso st collection h
  · exact createBackup_files iso st collection

/-- Witness of C7: a backup of "turnos" asked from a store without it. -/
theorem backupCollection_missing_witness :
    (backupCollection "2025-03-01T10:15:30.123Z"
        ⟨[("productividad.json", .json (.arr []))], none⟩ "turnos").1.status = 200 ∧
    (backupCollection "2025-03-01T10:15:30.123Z"
        ⟨[("productividad.json", .json (.arr []))], none⟩ "turnos").1.body =
      .obj [("success", .bool true),
        ("message", .str ("Backup de " ++ "turnos" ++ " creado exitosamente"))] ∧
    (backupCollection "2025-03-01T10:15:30.123Z"
        ⟨[("productividad.json", .json (.arr []))], none⟩ "turnos").2.backupFiles =
      Store.backupFiles ⟨[("productividad.json", .json (.arr []))], none⟩ ∧
    (backupCollection "2025-03-01T10:15:30.123Z"
        ⟨[("productividad.json", .json (.arr []))], none⟩ "turnos").2.files =
      [("productividad.json", .json (.arr []))] :=
  backupCollection_missing _ _ _ rfl

/-! ## Reading a file that is not JSON -/

/-- C8, as stated, fails: on a collection file that is not valid JSON both
Get endpoints answer HTTP 200 with `success: true` and the sentinel, not an
error. -/
theorem get_malformed_answers_200 :
    (configGet ⟨[("umbral.json", .other "[10, ")], none⟩ "umbral").status = 200 ∧
    (configGet ⟨[("umbral.json", .other "[10, ")], none⟩ "umbral").body =
      .obj [("success", .bool true), ("data", .null)] ∧
    (productividadGet ⟨[("productividad.json", .other "[10, ")], none⟩).status = 200 ∧
    (productividadGet ⟨[("productividad.json", .other "[10, ")], none⟩).body =
      .obj [("success", .bool true), ("data", .arr []), ("count", .num 0)] := by
  refine ⟨rfl, rfl, rfl, rfl⟩

/-- C8, amended: when a collection file exists but is not valid JSON,
`readJSON` swallows the parse error, and Get answers exactly as for a
missing file: HTTP 200, `success: true`, `data: null` on the generic
endpoint, and `data: []`, `count: 0` on the productividad endpoint. -/
theorem get_malformed_is_sentinel (st : Store) (collection raw : String)
    (h : st.files.lookup (collection ++ ".json") = some (.other raw)) :
    configGet st collection = ⟨200, .obj [("success", .bool true), ("data", .null)]⟩ ∧
    configGet st collection = configGet ⟨[], none⟩ collection ∧
    (collection = "productividad" →
      productividadGet st =
        ⟨200, .obj [("success", .bool true), ("data", .arr []), ("count", .num 0)]⟩ ∧
      productividadGet st = productividadGet ⟨[], none⟩) := by
  have hr : readJSON st collection = JSON.null := by rw [readJSON_eq, h]
  have he : ∀ name, readJSON ⟨[], none⟩ name = JSON.null := by
    intro name; rw [readJSON_eq]; rfl
  refine ⟨?_, ?_, ?_⟩
  · simp [configGet, hr, JSON.truthy]
  · simp [configGet, hr, he, JSON.truthy]
  · intro hc
    subst hc
    simp [productividadGet, hr, he, JSON.truthy]

/-- Witness of the amended C8: a truncated "productividad" file. -/
theorem get_malformed_is_sentinel_witness :
    configGet ⟨[("productividad.json", .other "[10, ")], none⟩ "productividad" =
      ⟨200, .obj [("success", .bool true), ("data", .null)]⟩ ∧
    configGet ⟨[("productividad.json", .other "[10, ")], none⟩ "productividad" =
      configGet ⟨[], none⟩ "productividad" ∧
    ("productividad" = "productividad" →
      productividadGet ⟨[("productividad.json", .other "[10, ")], none⟩ =
        ⟨200, .obj [("success", .bool true), ("data", .arr []), ("count", .num 0)]⟩ ∧
      productividadGet ⟨[("productividad.json", .other "[10, ")], none⟩ =
        productividadGet ⟨[], none⟩) :=
  get_malformed_is_sentinel _ "productividad" "[10, " rfl

/-! ## Save, then Get -/

theorem nonEmpty_of_ne {s : String} (h : s ≠ "") : nonEmpty s = true := by
  cases s with
  | mk data =>
    cases data with
    | nil => exact absurd rfl h
    | cons c cs => rfl

/-- C1, as stated, fails: a Save of the JSON value `0` is refused with
HTTP 400, and the following Get returns `null`, not `0`.  Moreover a Save of
`[1e999]`, which the handler receives as `[Infinity]`, succeeds and the
following Get returns `[null]`; a Save of `9007199254740993` succeeds and
the following Get returns `9007199254740992`; and a Save under the name
"a/b" answers HTTP 500. -/
theorem configSave_refuses_falsy_data :
    (configSave "2025-03-01T10:15:30.123Z" ⟨[], none⟩ ⟨some "contador", some (.num 0)⟩).1.status
      = 400 ∧
    (configSave "2025-03-01T10:15:30.123Z" ⟨[], none⟩ ⟨some "contador", some (.num 0)⟩).1.body =
      .obj [("success", .bool false), ("error", .str "Se requiere collection y data")] ∧
    (configGet
      (configSave "2025-03-01T10:15:30.123Z" ⟨[], none⟩ ⟨some "contador", some (.num 0)⟩).2
      "contador").body = .obj [("success", .bool true), ("data", .null)] ∧
    (configSave "2025-03-01T10:15:30.123Z" ⟨[], none⟩
      ⟨some "limites", some (.arr [.infinity false])⟩).1.status = 200 ∧
    (configGet
      (configSave "2025-03-01T10:15:30.123Z" ⟨[], none⟩
        ⟨some "limites", some (.arr [.infinity false])⟩).2
      "limites").body = .obj [("success", .bool true), ("data", .arr [.null])] ∧
    (configSave "2025-03-01T10:15:30.123Z" ⟨[], none⟩
      ⟨some "limite", some (expressJson (.num 9007199254740993))⟩).1.status = 200 ∧
    (configGet
      (configSave "2025-03-01T10:15:30.123Z" ⟨[], none⟩
        ⟨some "limite", some (expressJson (.num 9007199254740993))⟩).2
      "limite").body = .obj [("success", .bool true), ("data", .num 9007199254740992)] ∧
    (configSave "2025-03-01T10:15:30.123Z" ⟨[], none⟩
      ⟨some "a/b", some (.arr [.num 1])⟩).1.status = 500 := by
  refine ⟨rfl, rfl, rfl, rfl, rfl, rfl, rfl, rfl⟩

/-- C1, amended: from any store state, for every non-empty collection name
whose file name `<name>.json` the directory can hold (one path component of
at most 255 bytes) and every truthy JSON value `v` (any value but `null`,
`false`, `0` and the empty string) whose numbers are safe integers (of
magnitude below `2 ^ 53`), the generic Save succeeds and the Get that
follows returns `success: true` with `data` equal to `v`; and for every
array `items` of such values the productividad Save succeeds and the
productividad Get that follows returns `success: true` with `data` equal to
`items` and its length as `count`. -/
theorem save_then_get_roundtrip (iso : String) (st : Store) (collection : String)
    (v : JSON) (items : List JSON) (hname : collection ≠ "")
    (hfile : validFileName (collection ++ ".json") = true)
    (hv : v.truthy = true) (hexact : v.exact = true)
    (hitems : (JSON.arr items).exact = true) :
    (configSave iso st ⟨some collection, some v⟩).1 =
      ⟨200, .obj [("success", .bool true),
        ("message", .str (collection ++ " guardado exitosamente"))]⟩ ∧
    configGet (configSave iso st ⟨some collection, some v⟩).2 collection =
      ⟨200, .obj [("success", .bool true), ("data", v)]⟩ ∧
    (productividadSave iso st (some (.arr items))).1 =
      ⟨200, .obj [("success", .bool true), ("count", .num items.length),
        ("message", .str "Productividad guardada exitosamente")]⟩ ∧
    productividadGet (productividadSave iso st (some (.arr items))).2 =
      ⟨200, .obj [("success", .bool true), ("data", .arr items),
        ("count", .num items.length)]⟩ := by
  have hn := nonEmpty_of_ne hname
  have hw := writeJSON_valid (createBackup iso st collection) collection v hfile
  have hwp := writeJSON_valid (createBackup iso st "productividad") "productividad"
    (.arr items) (by decide)
  refine ⟨?_, ?_, ?_, ?_⟩
  · simp [configSave, hn, hv, hw]
  · have hr : readJSON (configSave iso st ⟨some collection, some v⟩).2 collection = v := by
      rw [readJSON_eq]
      simp [configSave, hn, hv, hw, lookup_putFile_same, JSON.stringify,
        JSON.revive_serialised v hexact]
    simp [configGet, hr, hv]
  · simp [productividadSave, JSON.truthy, JSON.isArray, hwp, JSON.length, prop]
  · have hr : readJSON (productividadSave iso st (some (.arr items))).2 "productividad" =
        .arr items := by
      rw [readJSON_eq]
      simp [productividadSave, JSON.truthy, JSON.isArray, hwp, lookup_putFile_same,
        JSON.stringify, JSON.revive_serialised (.arr items) hitems]
    simp [productividadGet, hr, JSON.truthy, JSON.length, prop]

/-- Witness of the amended C1: the specification's example records, and a
settings object saved under "ajustes". -/
theorem save_then_get_roundtrip_witness :
    (configSave "2025-03-01T10:15:30.123Z" ⟨[], none⟩
        ⟨some "ajustes", some (.obj [("tema", .str "oscuro")])⟩).1 =
      ⟨200, .obj [("success", .bool true),
        ("message", .str ("ajustes" ++ " guardado exitosamente"))]⟩ ∧
    configGet (configSave "2025-03-01T10:15:30.123Z" ⟨[], none⟩
        ⟨some "ajustes", some (.obj [("tema", .str "oscuro")])⟩).2 "ajustes" =
      ⟨200, .obj [("success", .bool true), ("data", .obj [("tema", .str "oscuro")])]⟩ ∧
    (productividadSave "2025-03-01T10:15:30.123Z" ⟨[], none⟩
        (some (.arr [.obj [("id", .num 1), ("hours", .num 8)]]))).1 =
      ⟨200, .obj [("success", .bool true),
        ("count", .num [JSON.obj [("id", .num 1), ("hours", .num 8)]].length),
        ("message", .str "Productividad guardada exitosamente")]⟩ ∧
    productividadGet (productividadSave "2025-03-01T10:15:30.123Z" ⟨[], none⟩
        (some (.arr [.obj [("id", .num 1), ("hours", .num 8)]]))).2 =
      ⟨200, .obj [("success", .bool true),
        ("data", .arr [.obj [("id", .num 1), ("hours", .num 8)]]),
        ("count", .num [JSON.obj [("id", .num 1), ("hours", .num 8)]].length)]⟩ :=
  save_then_get_roundtrip _ _ "ajustes" _ _ (by decide) rfl rfl rfl rfl

/-! ## Backups made by the mutating calls -/

/-- The first piece of a split is the text before the first separator. -/
theorem splitChars_head (sep : Char) (l : List Char) :
    ∃ rest, splitChars sep l = (l.takeWhile fun c => c != sep) :: rest := by
  induction l with
  | nil => exact ⟨[], rfl⟩
  | cons c cs ih =>
    obtain ⟨rest, hrest⟩ := ih
    by_cases hc : c = sep
    · exact ⟨splitChars sep cs, by simp [splitChars, hc]⟩
    · exact ⟨rest, by simp [splitChars, hc, hrest]⟩

theorem takeWhile_map_colon (l : List Char) :
    ((l.map fun c => if c = ':' then '-' else c).takeWhile fun c => c != '.') =
      (l.takeWhile fun c => c != '.').map fun c => if c = ':' then '-' else c := by
  induction l with
  | nil => rfl
  | cons c cs ih =>
    by_cases h1 : c = ':'
    · subst h1
      simp only [List.map_cons, if_true]
      rw [List.takeWhile_cons_of_pos (by decide), List.takeWhile_cons_of_pos (by decide), ih]
      simp
    · by_cases h2 : c = '.'
      · subst h2
        simp
      · have hp : (c != '.') = true := by simpa using h2
        simp only [List.map_cons, if_neg h1, List.takeWhile_cons, hp, if_true, ih]

/-- The timestamp computed by `createBackup` is the one the specification
describes. -/
theorem backupTimestamp_eq_spec (iso : String) : backupTimestamp iso = specTimestamp iso := by
  unfold backupTimestamp specTimestamp split replaceAll
  obtain ⟨rest, hrest⟩ := splitChars_head '.' (iso.data.map fun c => if c = ':' then '-' else c)
  simp only [hrest, List.map_cons, List.headD_cons]
  rw [takeWhile_map_colon]

theorem leavesBackup_putFile (d : Dir) (file : String) (text : FileText) :
    LeavesBackup d (putFile d file text) file text :=
  ⟨lookup_putFile_same d file text,
   fun g hg => lookup_putFile_other d file text g hg,
   length_putFile d file text⟩

/-- With a collection file and a backup name the directory can hold,
`createBackup` leaves its copy under the name the specification gives. -/
theorem createBackup_leavesBackup (iso : String) (st : Store) (name : String) (text : FileText)
    (h : st.files.lookup (name ++ ".json") = some text)
    (hvalid : validFileName (name ++ "_" ++ specTimestamp iso ++ ".json") = true) :
    LeavesBackup st.backupFiles (createBackup iso st name).backupFiles
      (name ++ "_" ++ specTimestamp iso ++ ".json") text := by
  rw [← backupTimestamp_eq_spec] at hvalid ⊢
  rw [createBackup_existing iso st name text h hvalid]
  exact leavesBackup_putFile _ _ _

theorem lookup_unlinkSync_same (d : Dir) (file : String) :
    (unlinkSync d file).lookup file = none := by
  induction d with
  | nil => rfl
  | cons e rest ih =>
    obtain ⟨k, t⟩ := e
    by_cases hk : k = file
    · subst hk
      simpa [unlinkSync] using ih
    · have hne : file ≠ k := fun h => hk h.symm
      have hf : ((k, t) :: rest).filter (fun e => e.1 != file) =
          (k, t) :: rest.filter (fun e => e.1 != file) := by
        simp [List.filter_cons, hk]
      unfold unlinkSync at ih ⊢
      rw [hf, lookup_cons_ne hne]
      exact ih

/-- When the backups directory cannot hold the backup's name, the copy
fails, `createBackup` swallows the error, and Delete goes on: the answer is
HTTP 200, the collection file is gone and no backup of it was made. -/
theorem deleteCollection_without_backup (iso : String) (st : Store) (name : String)
    (text : FileText) (hfile : st.files.lookup (name ++ ".json") = some text)
    (hvalid : validFileName (name ++ "_" ++ backupTimestamp iso ++ ".json") = false) :
    (deleteCollection iso st name).1.status = 200 ∧
    (deleteCollection iso st name).2.backupFiles = st.backupFiles ∧
    (deleteCollection iso st name).2.files.lookup (name ++ ".json") = none := by
  have hb := createBackup_refused iso st name hvalid
  have hf := createBackup_files iso st name
  refine ⟨?_, ?_, ?_⟩
  · simp [deleteCollection, existsSync, hfile]
  · simpa [deleteCollection, existsSync, hfile, Store.backupFiles] using hb
  · simp [deleteCollection, existsSync, hfile, hf, lookup_unlinkSync_same]

set_option maxRecDepth 20000 in
/-- The same on a collection whose name has 240 bytes: its file name has
245 bytes and exists, the backup name would have 265. -/
theorem deleteCollection_without_backup_witness :
    (deleteCollection "2025-03-01T10:15:30.123Z"
      ⟨[(String.mk (List.replicate 240 'a') ++ ".json", .json (.arr [.num 1]))], none⟩
      (String.mk (List.replicate 240 'a'))).1.status = 200 ∧
    (deleteCollection "2025-03-01T10:15:30.123Z"
      ⟨[(String.mk (List.replicate 240 'a') ++ ".json", .json (.arr [.num 1]))], none⟩
      (String.mk (List.replicate 240 'a'))).2.backupFiles =
      Store.backupFiles
        ⟨[(String.mk (List.replicate 240 'a') ++ ".json", .json (.arr [.num 1]))], none⟩ ∧
    (deleteCollection "2025-03-01T10:15:30.123Z"
      ⟨[(String.mk (List.replicate 240 'a') ++ ".json", .json (.arr [.num 1]))], none⟩
      (String.mk (List.replicate 240 'a'))).2.files.lookup
        (String.mk (List.replicate 240 'a') ++ ".json") = none :=
  deleteCollection_without_backup _ _ _ (.json (.arr [.num 1])) (by simp [List.lookup])
    (by decide)

/-- C5, as stated, fails: a second Backup call within the same second
overwrites the backup of the first and adds no file to the backups
directory, and a Save that is refused (falsy `data`) makes no backup at
all, although the collection file exists. -/
theorem backup_not_always_one_new_file :
    ((backupCollection "2025-03-01T10:15:30.900Z"
        (backupCollection "2025-03-01T10:15:30.100Z"
          ⟨[("ajustes.json", .json (.num 7))], none⟩ "ajustes").2 "ajustes").2.backupFiles.map
        Prod.fst =
      (backupCollection "2025-03-01T10:15:30.100Z"
          ⟨[("ajustes.json", .json (.num 7))], none⟩ "ajustes").2.backupFiles.map Prod.fst) ∧
    ((backupCollection "2025-03-01T10:15:30.900Z"
        (backupCollection "2025-03-01T10:15:30.100Z"
          ⟨[("ajustes.json", .json (.num 7))], none⟩ "ajustes").2 "ajustes").2.backupFiles.map
        Prod.fst = ["ajustes_2025-03-01T10-15-30.json"]) ∧
    ((configSave "2025-03-01T10:15:30.100Z" ⟨[("ajustes.json", .json (.num 7))], none⟩
        ⟨some "ajustes", some (.num 0)⟩).2.backupFiles.map Prod.fst = []) := by
  refine ⟨by decide, by decide, by decide⟩

/-- C5, amended: for every collection whose file exists before the call and
whose backup name `<name>_<timestamp>.json` the backups directory can hold
(one path component of at most 255 bytes), each Save that passes validation
(productividad with an array, generic with a non-empty name and truthy
data), each Delete and each explicit Backup leaves in the backups directory
the file `<name>_<timestamp>.json`, where `<timestamp>` is the call time's
ISO-8601 string with every `:` replaced by `-` and everything from the first
`.` removed, holding the collection file's content from before the call;
every other backup is unchanged, and the directory has exactly one file more
when it held no backup of that name (otherwise that backup is overwritten
and the count stays). -/
theorem mutation_leaves_backup (iso : String) (st : Store) (name : String) (text : FileText)
    (v : JSON) (items : List JSON)
    (hfile : st.files.lookup (name ++ ".json") = some text)
    (hbackup : validFileName (name ++ "_" ++ specTimestamp iso ++ ".json") = true)
    (hname : name ≠ "") (hv : v.truthy = true) :
    LeavesBackup st.backupFiles (configSave iso st ⟨some name, some v⟩).2.backupFiles
      (name ++ "_" ++ specTimestamp iso ++ ".json") text ∧
    LeavesBackup st.backupFiles (deleteCollection iso st name).2.backupFiles
      (name ++ "_" ++ specTimestamp iso ++ ".json") text ∧
    LeavesBackup st.backupFiles (backupCollection iso st name).2.backupFiles
      (name ++ "_" ++ specTimestamp iso ++ ".json") text ∧
    (name = "productividad" →
      LeavesBackup st.backupFiles (productividadSave iso st (some (.arr items))).2.backupFiles
        (name ++ "_" ++ specTimestamp iso ++ ".json") text) := by
  have hb := createBackup_leavesBackup iso st name text hfile hbackup
  have hn := nonEmpty_of_ne hname
  refine ⟨?_, ?_, ?_, ?_⟩
  · have he : (configSave iso st ⟨some name, some v⟩).2.backupFiles =
        (createBackup iso st name).backupFiles := by
      simp only [configSave, hn, hv, Bool.not_true, Bool.or_self, Bool.false_eq_true, if_false]
      split_ifs <;> simp [Store.backupFiles, writeJSON_backups]
    rw [he]; exact hb
  · have he : (deleteCollection iso st name).2.backupFiles =
        (createBackup iso st name).backupFiles := by
      simp [deleteCollection, existsSync, hfile, Store.backupFiles]
    rw [he]; exact hb
  · exact hb
  · intro hp
    subst hp
    have he : (productividadSave iso st (some (.arr items))).2.backupFiles =
        (createBackup iso st "productividad").backupFiles := by
      simp only [productividadSave, JSON.truthy, JSON.isArray, Bool.not_true, Bool.or_self,
        Bool.false_eq_true, if_false]
      split_ifs <;> simp [Store.backupFiles, writeJSON_backups]
    rw [he]; exact hb

/-- Witness of the amended C5: the store holds "productividad" and no
backups directory yet. -/
theorem mutation_leaves_backup_witness :
    LeavesBackup (Store.backupFiles ⟨[("productividad.json", .json (.arr [.num 1]))], none⟩)
      (configSave "2025-03-01T10:15:30.123Z"
        ⟨[("productividad.json", .json (.arr [.num 1]))], none⟩
        ⟨some "productividad", some (.arr [])⟩).2.backupFiles
      ("productividad" ++ "_" ++ specTimestamp "2025-03-01T10:15:30.123Z" ++ ".json")
      (.json (.arr [.num 1])) ∧
    LeavesBackup (Store.backupFiles ⟨[("productividad.json", .json (.arr [.num 1]))], none⟩)
      (deleteCollection "2025-03-01T10:15:30.123Z"
        ⟨[("productividad.json", .json (.arr [.num 1]))], none⟩ "productividad").2.backupFiles
      ("productividad" ++ "_" ++ specTimestamp "2025-03-01T10:15:30.123Z" ++ ".json")
      (.json (.arr [.num 1])) ∧
    LeavesBackup (Store.backupFiles ⟨[("productividad.json", .json (.arr [.num 1]))], none⟩)
      (backupCollection "2025-03-01T10:15:30.123Z"
        ⟨[("productividad.json", .json (.arr [.num 1]))], none⟩ "productividad").2.backupFiles
      ("productividad" ++ "_" ++ specTimestamp "2025-03-01T10:15:30.123Z" ++ ".json")
      (.json (.arr [.num 1])) ∧
    ("productividad" = "productividad" →
      LeavesBackup (Store.backupFiles ⟨[("productividad.json", .json (.arr [.num 1]))], none⟩)
        (productividadSave "2025-03-01T10:15:30.123Z"
          ⟨[("productividad.json", .json (.arr [.num 1]))], none⟩
          (some (.arr [.num 2, .num 3]))).2.backupFiles
        ("productividad" ++ "_" ++ specTimestamp "2025-03-01T10:15:30.123Z" ++ ".json")
        (.json (.arr [.num 1]))) :=
  mutation_leaves_backup _ _ "productividad" _ (.arr []) [.num 2, .num 3] rfl rfl
    (by decide) rfl

/-! ## The mail relay: attachments -/

/-- Two suffixes of one text: when neither is a suffix of the other, the
text cannot end with both. -/
theorem endsWith_false_of (s a b : String) (hb : endsWith s b = true)
    (hab : (a.data.isSuffixOf b.data || b.data.isSuffixOf a.data) = false) :
    endsWith s a = false := by
  cases ha : endsWith s a with
  | false => rfl
  | true =>
    exfalso
    unfold endsWith at ha hb
    rw [List.isSuffixOf_iff_suffix] at ha hb
    rw [Bool.or_eq_false_iff] at hab
    rcases List.suffix_or_suffix_of_suffix ha hb with h | h
    · have := List.isSuffixOf_iff_suffix.mpr h
      rw [hab.1] at this
      exact Bool.false_ne_true this
    · have := List.isSuffixOf_iff_suffix.mpr h
      rw [hab.2] at this
      exact Bool.false_ne_true this

/-- A name ending with a suffix of the table gets the content type the
table pairs with it, whatever the order of the tests. -/
theorem detectContentType_of_endsWith (fileName : String) (entry : String × String)
    (hmem : entry ∈ contentTypeTable) (h : endsWith fileName entry.1 = true) :
    detectContentType fileName = entry.2 := by
  have e := fun a hab => endsWith_false_of fileName a entry.1 h hab
  simp only [contentTypeTable, List.mem_cons, List.mem_singleton, List.not_mem_nil,
    or_false] at hmem
  rcases hmem with rfl | rfl | rfl | rfl | rfl | rfl | rfl | rfl
  · simp [detectContentType, h]
  · simp [detectContentType, h, e ".pdf" rfl]
  · simp [detectContentType, h, e ".pdf" rfl, e ".zip" rfl]
  · simp [detectContentType, h, e ".pdf" rfl, e ".zip" rfl, e ".rar" rfl]
  · simp [detectContentType, h, e ".pdf" rfl, e ".zip" rfl, e ".rar" rfl, e ".7z" rfl]
  · simp [detectContentType, h, e ".pdf" rfl, e ".zip" rfl, e ".rar" rfl, e ".7z" rfl,
      e ".doc" rfl]
  · simp [detectContentType, h, e ".pdf" rfl, e ".zip" rfl, e ".rar" rfl, e ".7z" rfl,
      e ".doc" rfl, e ".docx" rfl]
  · simp [detectContentType, h, e ".pdf" rfl, e ".zip" rfl, e ".rar" rfl, e ".7z" rfl,
      e ".doc" rfl, e ".docx" rfl, e ".xls" rfl]

/-- The chain of tests agrees with the table of the specification. -/
theorem detectContentType_tableGives (name : String) :
    TableGives name (detectContentType (toLowerCase name)) := by
  refine ⟨fun entry hmem h => detectContentType_of_endsWith _ entry hmem h, ?_⟩
  intro hnone
  simp only [contentTypeTable, List.mem_cons, List.mem_singleton, List.not_mem_nil,
    or_false, forall_eq_or_imp, forall_eq] at hnone
  obtain ⟨h1, h2, h3, h4, h5, h6, h7, h8⟩ := hnone
  simp [detectContentType, h1, h2, h3, h4, h5, h6, h7, h8]

/-- What the relay hands over for one attachment of the request. -/
theorem mapAttachment_spec (att : Attachment) :
    (mapAttachment att).filename = att.attachmentName ∧
    TableGives att.attachmentName (mapAttachment att).contentType ∧
    (mapAttachment att).content = ⟨att.content⟩ :=
  ⟨rfl, detectContentType_tableGives att.attachmentName, rfl⟩

/-- The attachments of the message are the images of those of the request. -/
theorem mailOptions_attachments (emailData : EmailData) :
    (mailOptions emailData).attachments.getD [] =
      (emailData.attachments.getD []).map mapAttachment := by
  unfold mailOptions
  cases hc : emailData.cc <;> cases ha : emailData.attachments with
  | none => simp <;> split <;> rfl
  | some atts =>
    cases atts with
    | nil => simp <;> split <;> rfl
    | cons a rest => simp

/-- C2: the attachments handed to the transport correspond one to one, in
order, to those of `emailData.attachments`; each keeps `filename` equal to
`attachmentName`, carries the decoded `content`, and has the `contentType`
the fixed table gives for the suffix of the lowercased name, with
`application/octet-stream` for a name ending in none of the suffixes.  So
`report.PDF` is sent as `application/pdf` under the name `report.PDF`, and
`data.bin` as `application/octet-stream`. -/
theorem attachments_keep_name_and_get_table_type (emailData : EmailData) :
    List.Forall₂
      (fun (att : Attachment) (sent : MailAttachment) =>
        sent.filename = att.attachmentName ∧
        TableGives att.attachmentName sent.contentType ∧
        sent.content = ⟨att.content⟩)
      (emailData.attachments.getD []) ((mailOptions emailData).attachments.getD []) ∧
    (mailOptions
      { fromAddress := "a@x.com", toAddress := "b@x.com", subject := "Informe",
        content := "<p>Adjuntos</p>", cc := none,
        attachments := some [⟨"report.PDF", "JVBERi0="⟩, ⟨"data.bin", "AAEC"⟩] }).attachments =
      some [⟨"report.PDF", ⟨"JVBERi0="⟩, "application/pdf"⟩,
        ⟨"data.bin", ⟨"AAEC"⟩, "application/octet-stream"⟩] := by
  refine ⟨?_, rfl⟩
  rw [mailOptions_attachments, List.forall₂_map_right_iff]
  exact List.forall₂_same.mpr fun att _ => mapAttachment_spec att

/-! ## The mail relay: the `cc` field -/

/-- The trimmed text is not empty exactly when the text has a character that
is not white space. -/
theorem nonEmpty_trim_iff (s : String) :
    nonEmpty (trim s) = true ↔ ∃ c ∈ s.data, isWhiteSpace c = false := by
  have hdrop : ∀ l : List Char,
      l.dropWhile isWhiteSpace ≠ [] ↔ ∃ c ∈ l, isWhiteSpace c = false := by
    intro l
    rw [Ne, List.dropWhile_eq_nil_iff]
    constructor
    · intro h
      by_contra hne
      exact h fun x hx => by
        cases hw : isWhiteSpace x with
        | true => rfl
        | false => exact absurd ⟨x, hx, hw⟩ hne
    · rintro ⟨c, hc, hw⟩ h
      rw [h c hc] at hw
      exact Bool.noConfusion hw
  have hne : nonEmpty (trim s) = true ↔
      ((s.data.dropWhile isWhiteSpace).reverse.dropWhile isWhiteSpace) ≠ [] := by
    unfold nonEmpty trim
    cases hl : ((s.data.dropWhile isWhiteSpace).reverse.dropWhile isWhiteSpace) with
    | nil => simp
    | cons c cs => simp
  rw [hne, hdrop]
  constructor
  · rintro ⟨c, hc, hw⟩
    rw [List.mem_reverse] at hc
    exact ⟨c, (List.dropWhile_sublist isWhiteSpace).subset hc, hw⟩
  · intro h
    have h2 := (hdrop s.data).mpr h
    refine ⟨(s.data.dropWhile isWhiteSpace).head h2, ?_, ?_⟩
    · rw [List.mem_reverse]
      exact List.head_mem h2
    · have := List.head_dropWhile_not isWhiteSpace s.data h2
      simpa using this

/-- C9: the message carries a `cc` field if and only if `emailData.cc` is
present and has a character that is not white space; the field then equals
the given string unchanged, and it is absent when `cc` is omitted, empty or
blank.  The fields `from`, `to`, `subject` and `html` are copied from
`fromAddress`, `toAddress`, `subject` and `content` whatever `cc` is. -/
theorem cc_iff_present_and_non_blank (emailData : EmailData) :
    ((mailOptions emailData).cc ≠ none ↔
      ∃ cc, emailData.cc = some cc ∧ ∃ c ∈ cc.data, isWhiteSpace c = false) ∧
    ((mailOptions emailData).cc ≠ none → (mailOptions emailData).cc = emailData.cc) ∧
    (mailOptions emailData).«from» = emailData.fromAddress ∧
    (mailOptions emailData).«to» = emailData.toAddress ∧
    (mailOptions emailData).subject = emailData.subject ∧
    (mailOptions emailData).html = emailData.content ∧
    (mailOptions ⟨"a@x.com", "b@x.com", "Informe", "<p>Hola</p>", none, none⟩).cc = none ∧
    (mailOptions ⟨"a@x.com", "b@x.com", "Informe", "<p>Hola</p>", some "a@x.com", none⟩).cc =
      some "a@x.com" ∧
    (mailOptions ⟨"a@x.com", "b@x.com", "Informe", "<p>Hola</p>", some "  \t", none⟩).cc =
      none := by
  have hcc : (mailOptions emailData).cc =
      match emailData.cc with
      | some cc => if nonEmpty cc && nonEmpty (trim cc) then some cc else none
      | none => none := by
    unfold mailOptions
    cases emailData.cc <;> cases emailData.attachments <;> dsimp only <;>
      (try split_ifs) <;> simp
  have hfields : (mailOptions emailData).«from» = emailData.fromAddress ∧
      (mailOptions emailData).«to» = emailData.toAddress ∧
      (mailOptions emailData).subject = emailData.subject ∧
      (mailOptions emailData).html = emailData.content := by
    unfold mailOptions
    cases emailData.cc <;> cases emailData.attachments <;> dsimp only <;>
      (try split_ifs) <;> simp
  have hblank : ∀ cc : String, (nonEmpty cc && nonEmpty (trim cc)) = true ↔
      ∃ c ∈ cc.data, isWhiteSpace c = false := by
    intro cc
    rw [Bool.and_eq_true, nonEmpty_trim_iff]
    constructor
    · exact fun h => h.2
    · rintro ⟨c, hc, hw⟩
      refine ⟨?_, c, hc, hw⟩
      unfold nonEmpty
      cases hd : cc.data with
      | nil => rw [hd] at hc; cases hc
      | cons x xs => rfl
  refine ⟨?_, ?_, hfields.1, hfields.2.1, hfields.2.2.1, hfields.2.2.2, rfl, ?_, ?_⟩
  · rw [hcc]
    cases h : emailData.cc with
    | none => simp
    | some cc =>
      by_cases hb : (nonEmpty cc && nonEmpty (trim cc)) = true
      · simp only [hb, if_true]
        exact ⟨fun _ => ⟨cc, rfl, (hblank cc).mp hb⟩, fun _ => by simp⟩
      · simp only [hb]
        constructor
        · intro hx; exact absurd rfl hx
        · rintro ⟨cc2, h2, hex⟩
          cases h2
          exact absurd ((hblank cc).mpr hex) hb
  · rw [hcc]
    cases h : emailData.cc with
    | none => simp
    | some cc =>
      by_cases hb : (nonEmpty cc && nonEmpty (trim cc)) = true
      · simp [hb]
      · simp [hb]
  · decide
  · decide

/-! ## Listing and statistics for a name that contains ".json"

Both endpoints recover the collection name with `file.replace('.json', '')`,
which removes the first occurrence of ".json" in the file name, not the
extension.  For the collection "eventos.jsonl" the file is
"eventos.jsonl.json", the name recovered is "eventosl.json", and `readJSON`
looks for "eventosl.json.json", which does not exist. -/

theorem not_isPrefixOf_json (n : List Char) (hn : n ≠ [])
    (h : ¬ ".json".data <:+: n) : (".json".data).isPrefixOf (n ++ ".json".data) = false := by
  cases hp : (".json".data).isPrefixOf (n ++ ".json".data) with
  | false => rfl
  | true =>
    exfalso
    rcases n with _ | ⟨a, _ | ⟨b, _ | ⟨c, _ | ⟨d, _ | ⟨e, rest⟩⟩⟩⟩⟩
    · exact hn rfl
    · simp [List.isPrefixOf] at hp
    · simp [List.isPrefixOf] at hp
    · simp [List.isPrefixOf] at hp
    · simp [List.isPrefixOf] at hp
    · simp [List.isPrefixOf] at hp
      obtain ⟨rfl, rfl, rfl, rfl, rfl⟩ := hp
      exact h ⟨[], rest, rfl⟩

/-- On a name without ".json" inside, the first occurrence of ".json" in the
file name is the extension. -/
theorem replaceFirstChars_json_suffix (n : List Char) (h : ¬ ".json".data <:+: n) :
    replaceFirstChars ".json".data [] (n ++ ".json".data) = n := by
  induction n with
  | nil => rfl
  | cons c cs ih =>
    have hcs : ¬ ".json".data <:+: cs := fun hi => h (hi.trans (List.suffix_cons c cs).isInfix)
    have hp := not_isPrefixOf_json (c :: cs) (by simp) h
    rw [List.cons_append] at hp ⊢
    rw [replaceFirstChars, hp]
    simp [ih hcs]

/-- A file name ending with ".json" is its collection name and the
extension. -/
theorem collectionName_append (file : String) (h : endsWith file ".json" = true) :
    collectionName file ++ ".json" = file := by
  unfold endsWith at h
  rw [List.isSuffixOf_iff_suffix] at h
  obtain ⟨t, ht⟩ := h
  apply String.ext
  rw [String.data_append]
  unfold collectionName
  simp only [← ht, List.length_append, Nat.add_sub_cancel, List.take_left']

theorem replace_json_eq_collectionName (file : String) (h : endsWith file ".json" = true)
    (hplain : ¬ ".json".data <:+: (collectionName file).data) :
    replace file ".json" "" = collectionName file := by
  have hfile := collectionName_append file h
  apply String.ext
  unfold replace
  have hd : file.data = (collectionName file).data ++ ".json".data := by
    rw [← String.data_append, hfile]
  show replaceFirstChars ".json".data [] file.data = (collectionName file).data
  rw [hd]
  exact replaceFirstChars_json_suffix _ hplain

/-- In a directory without repeated names, every file is found under its
name. -/
theorem lookup_of_mem_nodup (d : Dir) (hd : (d.map Prod.fst).Nodup) (e : String × FileText)
    (he : e ∈ d) : d.lookup e.1 = some e.2 := by
  induction d with
  | nil => cases he
  | cons x rest ih =>
    obtain ⟨k, t⟩ := x
    rw [List.map_cons, List.nodup_cons] at hd
    rcases List.mem_cons.mp he with rfl | hmem
    · exact lookup_cons_self
    · have hne : e.1 ≠ k := by
        intro hk
        have hin : e.1 ∈ rest.map Prod.fst := List.mem_map_of_mem Prod.fst hmem
        rw [hk] at hin
        exact hd.1 hin
      rw [lookup_cons_ne hne]
      exact ih hd.2 hmem

/-- The files kept by the filter of both endpoints are the collection
files; the subdirectory is not one of them. -/
theorem filter_readdirSync (st : Store) :
    ((readdirSync st).filter fun file => endsWith file ".json") =
      (collectionFiles st).map Prod.fst := by
  unfold readdirSync collectionFiles
  rw [List.filter_append, List.filter_map]
  have hb : ((if st.backups.isSome then ["backups"] else []).filter
      fun file => endsWith file ".json") = [] := by
    split
    · decide
    · rfl
  rw [hb, List.append_nil]
  rfl

/-- On a store with plain names, `readJSON` of the name recovered from a
collection file is the parsed text of that file. -/
theorem readJSON_replace_of_plain (st : Store) (h : PlainNames st) (e : String × FileText)
    (he : e ∈ collectionFiles st) :
    replace e.1 ".json" "" = collectionName e.1 ∧
    readJSON st (replace e.1 ".json" "") =
      match JSON.parse e.2 with
      | .ok v => v
      | .error _ => JSON.null := by
  have hmem : e ∈ st.files := (List.mem_filter.mp he).1
  have hends : endsWith e.1 ".json" = true := by simpa using (List.mem_filter.mp he).2
  have hname := replace_json_eq_collectionName e.1 hends (h.2 e he)
  refine ⟨hname, ?_⟩
  rw [hname, readJSON_eq, collectionName_append e.1 hends, lookup_of_mem_nodup st.files h.1 e hmem]
  cases e.2 <;> rfl

theorem foldl_add_eq_sum (g : String → Nat) (l : List String) (init : Nat) :
    l.foldl (fun total file => total + g file) init = init + (l.map g).sum := by
  induction l generalizing init with
  | nil => simp
  | cons x rest ih => simp [ih, Nat.add_assoc]

/-- On a store with plain names `GET /api/db/stats` and
`GET /api/db/collections` give what the specification says: the number of
collection files, the sum of their array lengths, and one entry per
collection file with its name and record count. -/
theorem stats_collections_eq_spec_of_plain (st : Store) (h : PlainNames st) :
    (stats st).collections = (collectionFiles st).length ∧
    (stats st).totalRecords = specTotalRecords st ∧
    collections st = specCollections st := by
  refine ⟨?_, ?_, ?_⟩
  · simp [stats, filter_readdirSync]
  · unfold stats specTotalRecords
    simp only [filter_readdirSync]
    have hfold : ∀ (init : Nat) (l : List String),
        l.foldl (fun total file =>
          match readJSON st (replace file ".json" "") with
          | .arr items => total + items.length
          | _ => total) init =
        l.foldl (fun total file => total +
          (match readJSON st (replace file ".json" "") with
          | .arr items => items.length
          | _ => 0)) init := by
      intro init l
      congr 1
      funext total file
      split <;> simp
    rw [hfold, foldl_add_eq_sum, Nat.zero_add, List.map_map]
    congr 1
    apply List.map_congr_left
    intro e he
    have hread := (readJSON_replace_of_plain st h e he).2
    obtain ⟨k, t⟩ := e
    simp only [Function.comp, hread, recordsOf]
    cases t with
    | json v =>
      simp only [JSON.parse]
      generalize v.revive = w
      cases w <;> rfl
    | other raw => rfl
  · unfold collections specCollections
    rw [filter_readdirSync, List.map_map]
    apply List.map_congr_left
    intro e he
    obtain ⟨hname, hread⟩ := readJSON_replace_of_plain st h e he
    obtain ⟨k, t⟩ := e
    rw [hname] at hread
    simp only [Function.comp, hname, hread, recordsOf]
    cases t with
    | json v =>
      simp only [JSON.parse]
      generalize v.revive = w
      cases w <;> rfl
    | other raw => rfl

/-- The agreement on a store with two collections, a stray text file and one
backup. -/
theorem stats_collections_eq_spec_of_plain_witness :
    (stats ⟨[("productividad.json", .json (.arr [.num 1, .num 2])),
        ("ajustes.json", .json (.obj [("tema", .str "oscuro")])),
        ("notas.txt", .other "pendiente")],
      some [("ajustes_2025-03-01T10-15-30.json", .json (.arr [.num 9]))]⟩).totalRecords = 2 ∧
    (collections ⟨[("productividad.json", .json (.arr [.num 1, .num 2])),
        ("ajustes.json", .json (.obj [("tema", .str "oscuro")])),
        ("notas.txt", .other "pendiente")],
      some [("ajustes_2025-03-01T10-15-30.json", .json (.arr [.num 9]))]⟩).map
        (fun e => (e.name, e.records)) =
      [("productividad", .num 2), ("ajustes", .str "N/A")] :=
  have h := stats_collections_eq_spec_of_plain
    ⟨[("productividad.json", .json (.arr [.num 1, .num 2])),
        ("ajustes.json", .json (.obj [("tema", .str "oscuro")])),
        ("notas.txt", .other "pendiente")],
      some [("ajustes_2025-03-01T10-15-30.json", .json (.arr [.num 9]))]⟩
    ⟨by decide, by decide⟩
  ⟨h.2.1.trans (by decide), (congrArg (List.map fun e => (e.name, e.records)) h.2.2).trans rfl⟩

/-- C4 at a failing input: after a successful Save of three records under
the name "eventos.jsonl", `GET /api/db/stats` reports `totalRecords` 0,
while the sum of the array lengths over the collection files is 3. -/
theorem stats_loses_records_of_name_containing_json :
    (configSave "2025-03-01T10:15:30.123Z" ⟨[], none⟩
      ⟨some "eventos.jsonl", some (.arr [.num 1, .num 2, .num 3])⟩).1.status = 200 ∧
    (configSave "2025-03-01T10:15:30.123Z" ⟨[], none⟩
      ⟨some "eventos.jsonl", some (.arr [.num 1, .num 2, .num 3])⟩).2.files =
      [("eventos.jsonl.json", .json (.arr [.num 1, .num 2, .num 3]))] ∧
    (stats (configSave "2025-03-01T10:15:30.123Z" ⟨[], none⟩
      ⟨some "eventos.jsonl", some (.arr [.num 1, .num 2, .num 3])⟩).2).collections = 1 ∧
    (stats (configSave "2025-03-01T10:15:30.123Z" ⟨[], none⟩
      ⟨some "eventos.jsonl", some (.arr [.num 1, .num 2, .num 3])⟩).2).totalRecords = 0 ∧
    specTotalRecords (configSave "2025-03-01T10:15:30.123Z" ⟨[], none⟩
      ⟨some "eventos.jsonl", some (.arr [.num 1, .num 2, .num 3])⟩).2 = 3 := by
  refine ⟨rfl, rfl, by decide, by decide, by decide⟩

/-- C10 at a failing input: after a successful Save of three records under
the name "eventos.jsonl", `GET /api/db/collections` lists one entry, named
"eventosl.json" with `records: 'N/A'`, where the specification has the
name "eventos.jsonl" and 3 records. -/
theorem collections_misnames_name_containing_json :
    (configSave "2025-03-01T10:15:30.123Z" ⟨[], none⟩
      ⟨some "eventos.jsonl", some (.arr [.num 1, .num 2, .num 3])⟩).1.status = 200 ∧
    (collections (configSave "2025-03-01T10:15:30.123Z" ⟨[], none⟩
      ⟨some "eventos.jsonl", some (.arr [.num 1, .num 2, .num 3])⟩).2).map
        (fun e => (e.name, e.records)) = [("eventosl.json", .str "N/A")] ∧
    (specCollections (configSave "2025-03-01T10:15:30.123Z" ⟨[], none⟩
      ⟨some "eventos.jsonl", some (.arr [.num 1, .num 2, .num 3])⟩).2).map
        (fun e => (e.name, e.records)) = [("eventos.jsonl", .num 3)] := by
  refine ⟨rfl, rfl, rfl⟩

end STIBackend
